import Mathlib

/-!
# envconfig: missing-variable diagnostics in front of an environment binder

A shallow embedding of `envconfig.go` (package `envconfig`): the error value
`MissingEnvError`, the recursive schema walk `findMissingRequiredVars` and the
entry point `Process`.

Go's `reflect.Type` of a configuration structure is a finite tree here: a
structure is a list of fields, a field carries its name, its parsed struct tag
and its type.  The instance (`reflect.Value`) is typed by the schema, so a
value always has the shape of its type.  A structure type that contains a
pointer to itself has no finite tree; the section on declared structure types
walks type expressions over named declarations and counts the nested
activations.  What the package takes from the Go runtime and standard library
(`strings.ToUpper`, `strconv.IsPrint`, the process environment) is collected
in `Host`; the result of the imported binder
`github.com/kelseyhightower/envconfig` is an argument of `Process`.
-/

namespace EnvConfig

/-! ## Data model -/

/-- A struct tag in parsed form: the `key:"value"` pairs in the order written. -/
abbrev StructTag := List (String × String)

/-- The method `reflect.StructTag.Get`: the value of the first pair with the
key, or the empty string when the tag has no such key. -/
def StructTag.Get (tag : StructTag) (key : String) : String :=
  (tag.lookup key).getD ""

mutual
/-- A Go type as the walk sees it through `Kind()` and `Elem()`: a structure,
a pointer, or a type of any other kind (string, int, bool, slice, map, ...). -/
inductive GoType where
  | basic : GoType
  | struct (fields : Fields) : GoType
  | ptr (elem : GoType) : GoType
/-- The fields of a structure type in declaration order, `t.Field(0)`,
`t.Field(1)`, ...: each a `reflect.StructField` with `Name`, `Tag` and `Type`. -/
inductive Fields where
  | nil : Fields
  | cons (Name : String) (Tag : StructTag) (Typ : GoType) (rest : Fields) : Fields
end

mutual
/-- The values of a type: a pointer is nil (`none`) or points to a value of
the element type; the content of a value of another kind is kept as text. -/
def GoType.Value : GoType → Type
  | .basic => String
  | .struct fields => fields.Values
  | .ptr elem => Option elem.Value
/-- The values of a structure: one value per field, `v.Field(i)`. -/
def Fields.Values : Fields → Type
  | .nil => Unit
  | .cons _ _ typ rest => typ.Value × rest.Values
end

mutual
/-- The zero value of a type, what `reflect.New(t).Elem()` holds. -/
def GoType.Zero : (t : GoType) → t.Value
  | .basic => ""
  | .struct fields => fields.Zero
  | .ptr _ => none
/-- The zero value of a structure: every field zero. -/
def Fields.Zero : (t : Fields) → t.Values
  | .nil => ()
  | .cons _ _ typ rest => (typ.Zero, rest.Zero)
end

/-- What the package calls outside itself: `strings.ToUpper`,
`strconv.IsPrint` (used by the `%q` verb) and the process environment table,
`none` for a variable that is not set. -/
structure Host where
  ToUpper : String → String
  IsPrint : Char → Bool
  environ : String → Option String

/-- The call `os.Getenv`: the value of the variable, empty when it is not
present. -/
def Host.Getenv (h : Host) (key : String) : String :=
  (h.environ key).getD ""

/-- The call `strings.Contains(s, substr)`: `substr` is within `s`. -/
def Contains (s substr : String) : Bool :=
  decide (substr.data <:+: s.data)

/-! ## `%q`: `strconv.Quote` -/

/-- The digit table `lowerhex` of `strconv`, indexed by the low four bits. -/
def lowerhex (n : Nat) : Char :=
  "0123456789abcdef".data.getD (n % 16) '0'

/-- The loop `for s := top; s >= 0; s -= 4 { lowerhex[r>>s & 0xF] }` over
`digits` hexadecimal digits, most significant first. -/
def hexDigits (r : Nat) : Nat → List Char
  | 0 => []
  | digits + 1 => lowerhex (r / 16 ^ digits) :: hexDigits r digits

/-- The function `strconv.appendEscapedRune` with the double quote as quote
character and neither `ASCIIonly` nor `graphicOnly`: the quote (U+0022) and
the backslash (U+005C) get a backslash, a printable rune stands for itself,
the others are written as escapes. -/
def appendEscapedRune (h : Host) (r : Char) : List Char :=
  if r = Char.ofNat 34 ∨ r = Char.ofNat 92 then [Char.ofNat 92, r]
  else if h.IsPrint r = true then [r]
  else if r = Char.ofNat 7 then [Char.ofNat 92, 'a']
  else if r = Char.ofNat 8 then [Char.ofNat 92, 'b']
  else if r = Char.ofNat 12 then [Char.ofNat 92, 'f']
  else if r = Char.ofNat 10 then [Char.ofNat 92, 'n']
  else if r = Char.ofNat 13 then [Char.ofNat 92, 'r']
  else if r = Char.ofNat 9 then [Char.ofNat 92, 't']
  else if r = Char.ofNat 11 then [Char.ofNat 92, 'v']
  else if r.toNat < 32 ∨ r.toNat = 127 then Char.ofNat 92 :: 'x' :: hexDigits r.toNat 2
  else if r.toNat < 65536 then Char.ofNat 92 :: 'u' :: hexDigits r.toNat 4
  else Char.ofNat 92 :: 'U' :: hexDigits r.toNat 8

/-- The function `strconv.Quote`, which `fmt` applies for `%q`: the runes of
the string, each escaped as needed, between two double quotes. -/
def Quote (h : Host) (s : String) : String :=
  String.mk (Char.ofNat 34 :: (s.data.flatMap (appendEscapedRune h) ++ [Char.ofNat 34]))

/-! ## `MissingEnvError` -/

/-- MissingEnvError represents a missing environment variable error. -/
structure MissingEnvError where
  StructField : String
  EnvKey : String
deriving DecidableEq, Repr

/-- The method `MissingEnvError.Error`:
`fmt.Sprintf("missing required environment variable %q", e.EnvKey)`. -/
def MissingEnvError.Error (h : Host) (e : MissingEnvError) : String :=
  "missing required environment variable " ++ Quote h e.EnvKey

/-! ## The walk -/

/-- The block that computes `nextPrefix` for a nested field: the field's key
fragment, put behind the current prefix and an underscore when there is a
prefix, and the prefix alone when the fragment is empty. -/
def nextPrefix (pfx envTag : String) : String :=
  let next := if envTag ≠ "" then envTag else ""
  if pfx ≠ "" then
    if next ≠ "" then pfx ++ "_" ++ next else pfx
  else next

/-- The block that computes `envKey` for a scalar field: the fragment, behind
the prefix and an underscore when there is a prefix. -/
def envKey (pfx envTag : String) : String :=
  if pfx ≠ "" then pfx ++ "_" ++ envTag else envTag

/-- The function `findMissingRequiredVars` recursively checks for missing
required environment variables.  The loop over `t.Field(i)` is the recursion
over the field list, `missing = append(missing, ...)` is `++`.  A field whose kind is
`Struct`, or `Ptr` with an element of kind `Struct`, is walked with the next
prefix (a nil pointer through a fresh zero value); any other field is checked
when its `required` tag is `"true"` and its `envconfig` tag is not empty. -/
def findMissingRequiredVars (h : Host) :
    (pfx : String) → (t : Fields) → (v : t.Values) → List MissingEnvError
  | _, .nil, _ => []
  | pfx, .cons _ tag (.struct fields) rest, (fv, vs) =>
      findMissingRequiredVars h (nextPrefix pfx (tag.Get "envconfig")) fields fv
        ++ findMissingRequiredVars h pfx rest vs
  | pfx, .cons _ tag (.ptr (.struct fields)) rest, (fv, vs) =>
      let fieldValue : fields.Values :=
        match fv with
        | none => fields.Zero
        | some x => x
      findMissingRequiredVars h (nextPrefix pfx (tag.Get "envconfig")) fields fieldValue
        ++ findMissingRequiredVars h pfx rest vs
  | pfx, .cons name tag _ rest, (_, vs) =>
      let envTag := tag.Get "envconfig"
      let reqTag := tag.Get "required"
      (if reqTag = "true" ∧ envTag ≠ "" then
        if h.Getenv (h.ToUpper (envKey pfx envTag)) = "" then
          [{ StructField := name, EnvKey := h.ToUpper (envKey pfx envTag) }]
        else []
      else [])
        ++ findMissingRequiredVars h pfx rest vs

/-! ## `Process` -/

/-- The errors `envconfig.Process` of `github.com/kelseyhightower/envconfig`
returns, by class.  That package is imported, not part of this repository;
the classes and texts are the ones it documents: a required key without a
value, `ErrInvalidSpecification` for a target that is not a pointer to a
structure (nil, a non-pointer, a pointer to a non-structure), and `ParseError`
for a value that cannot be converted to the field's type. -/
inductive BinderError where
  | requiredKeyAbsent (key : String)
  | invalidSpecification
  | parseError (KeyName FieldName TypeName Value Err : String)
deriving DecidableEq, Repr

/-- The text `err.Error()` of a binder error. -/
def BinderError.Error : BinderError → String
  | .requiredKeyAbsent key => "required key " ++ key ++ " missing value"
  | .invalidSpecification => "specification must be a struct pointer"
  | .parseError keyName fieldName typeName value err =>
      "envconfig.Process: assigning " ++ keyName ++ " to " ++ fieldName
        ++ ": converting " ++ String.singleton (Char.ofNat 39) ++ value
        ++ String.singleton (Char.ofNat 39) ++ " to type " ++ typeName
        ++ ". details: " ++ err

/-- The error `Process` returns: the binder's own error value, or the new
error built by `fmt.Errorf`. -/
inductive GoError where
  | binder (e : BinderError)
  | errorf (text : String)
deriving DecidableEq, Repr

/-- The text of the returned error. -/
def GoError.Error : GoError → String
  | .binder e => e.Error
  | .errorf text => text

/-- The argument `spec any` of `Process`: nil, a value that is not a pointer,
a pointer to something that is not a structure, or a pointer to a structure
of type `t` holding `v`.  (A nil pointer of a structure type, which the
binder rejects like the first three, is not among the targets modelled.) -/
inductive Target where
  | nil
  | nonPointer
  | ptrToNonStruct
  | ptrToStruct (t : Fields) (v : t.Values)

/-- How a call ends: it returns an `error` (`none` is the nil error), or it
panics. -/
inductive Outcome where
  | panic
  | ret (err : Option GoError)
deriving DecidableEq, Repr

/-- Process processes the configuration with detailed error messages.  `err`
is what `envconfig.Process(prefix, spec)` returned and `spec` the target as
the binder left it.  The calls `reflect.TypeOf(spec).Elem()`,
`reflect.ValueOf(spec).Elem()` and `t.NumField()` panic unless `spec` is a
pointer to a structure. -/
def Process (h : Host) (err : Option BinderError) (pfx : String) (spec : Target) : Outcome :=
  match err with
  | none => .ret none
  | some e =>
    if Contains e.Error "required key" = true then
      match spec with
      | .ptrToStruct t v =>
          let missingVars := findMissingRequiredVars h pfx t v
          if missingVars.length > 0 then
            let errMsgs := missingVars.map (MissingEnvError.Error h)
            .ret (some (.errorf ("configuration error:\n\t" ++ "\n\t".intercalate errMsgs)))
          else .ret (some (.binder e))
      | _ => .panic
    else .ret (some (.binder e))

/-! ## A concrete host and the schema of the tests -/

/-- The function `strings.ToUpper` on ASCII text: the letters a to z are
mapped to A to Z. -/
def asciiUpper (s : String) : String :=
  String.mk (s.data.map Char.toUpper)

/-- A host for text in ASCII: upper-casing of the ASCII letters, the printable
ASCII characters U+0020 to U+007E, and the environment given as a list of
`KEY=value` bindings. -/
def asciiHost (env : List (String × String)) : Host where
  ToUpper := asciiUpper
  IsPrint := fun c => decide (32 ≤ c.toNat ∧ c.toNat ≤ 126)
  environ := fun key => env.lookup key

/-- The structure `TestConfig` of the package's tests. -/
def TestConfig : Fields :=
  .cons "Simple" [("envconfig", "SIMPLE"), ("required", "true")] .basic <|
  .cons "WithDefault" [("envconfig", "WITH_DEFAULT"), ("default", "default_value")] .basic <|
  .cons "Nested" [("envconfig", "NESTED")]
    (.struct <|
      .cons "Required" [("envconfig", "REQUIRED"), ("required", "true")] .basic <|
      .cons "Optional" [("envconfig", "OPTIONAL")] .basic .nil) <|
  .cons "PointerNested" [("envconfig", "PTR")]
    (.ptr <| .struct <|
      .cons "Required" [("envconfig", "REQUIRED"), ("required", "true")] .basic .nil) <|
  .nil

/-- The call `os.Setenv(key, value)`: the host with the variable bound to the value. -/
def Host.setenv (h : Host) (key value : String) : Host where
  ToUpper := h.ToUpper
  IsPrint := h.IsPrint
  environ := Function.update h.environ key (some value)

/-- The call `os.Unsetenv(key)`: the host with the variable removed. -/
def Host.unsetenv (h : Host) (key : String) : Host where
  ToUpper := h.ToUpper
  IsPrint := h.IsPrint
  environ := Function.update h.environ key none

/-- A structure with a required field that declares no key and a required
field with the key `B`:
`struct { A string "required:true"; B string "envconfig:B required:true" }`. -/
def UntaggedConfig : Fields :=
  .cons "A" [("required", "true")] .basic <|
  .cons "B" [("envconfig", "B"), ("required", "true")] .basic .nil

/-- A structure whose only field is required and declares no key. -/
def UntaggedOnly : Fields :=
  .cons "A" [("required", "true")] .basic .nil

/-- A structure with an integer field read from `PORT` and a required field
read from `NAME`. -/
def PortConfig : Fields :=
  .cons "Port" [("envconfig", "PORT")] .basic <|
  .cons "Name" [("envconfig", "NAME"), ("required", "true")] .basic .nil

/-- The `ParseError` of the binder for `PORT=required key` bound to an `int`
field. -/
def portParseError : BinderError :=
  .parseError "PORT" "Port" "int" "required key"
    "strconv.ParseInt: parsing \"required key\": invalid syntax"

/-- The class of a binder error is "a required key was absent". -/
def BinderError.isRequiredKeyAbsent : BinderError → Bool
  | .requiredKeyAbsent _ => true
  | _ => false

/-- The target is a pointer to a structure. -/
def Target.isPtrToStruct : Target → Bool
  | .ptrToStruct _ _ => true
  | _ => false

/-! ## The schema tree as the specification reads it -/

/-- A scalar leaf of the schema tree: a field that is neither a structure nor
a pointer to a structure, with the key fragments of the nested fields that
enclose it, outermost first. -/
structure Leaf where
  Name : String
  Tag : StructTag
  path : List String
deriving DecidableEq, Repr

/-- The key fragment a field declares. -/
def Leaf.fragment (l : Leaf) : String := l.Tag.Get "envconfig"

/-- The required flag of a field. -/
def Leaf.required (l : Leaf) : Bool := decide (l.Tag.Get "required" = "true")

/-- The scalar leaves of a schema in depth-first field-declaration order: the
leaves of a nested field stand at the place of that field among its siblings.
The argument `path` holds the fragments of the nested fields entered so far. -/
def leaves (path : List String) : Fields → List Leaf
  | .nil => []
  | .cons _ tag (.struct fields) rest =>
      leaves (path ++ [tag.Get "envconfig"]) fields ++ leaves path rest
  | .cons _ tag (.ptr (.struct fields)) rest =>
      leaves (path ++ [tag.Get "envconfig"]) fields ++ leaves path rest
  | .cons name tag _ rest => { Name := name, Tag := tag, path := path } :: leaves path rest

/-- The effective key of a leaf under the caller's prefix, by the rule of the
walk: the prefix taken through every enclosing nested field, then the leaf's
fragment, in upper case. -/
def Leaf.effectiveKey (h : Host) (pfx : String) (l : Leaf) : String :=
  h.ToUpper (envKey (l.path.foldl nextPrefix pfx) l.fragment)

/-- A leaf is missing: it is required, declares a key fragment, and its
effective key has no non-empty value in the environment. -/
def Leaf.isMissing (h : Host) (pfx : String) (l : Leaf) : Bool :=
  l.required && decide (l.fragment ≠ "") && decide (h.Getenv (l.effectiveKey h pfx) = "")

/-- The record reported for a leaf: its declared name and its effective key. -/
def Leaf.record (h : Host) (pfx : String) (l : Leaf) : MissingEnvError :=
  { StructField := l.Name, EnvKey := l.effectiveKey h pfx }

/-- A string is not the empty string. -/
def notEmpty (s : String) : Bool := decide (s ≠ "")

/-- The members that are not empty, joined by underscores. -/
def joinNonEmpty (xs : List String) : String :=
  "_".intercalate (xs.filter notEmpty)

/-- The key of a leaf as the specification words it: the members of caller
prefix, enclosing fragments and own fragment that are not empty, joined by
underscores, in upper case. -/
def Leaf.joinedKey (h : Host) (pfx : String) (l : Leaf) : String :=
  h.ToUpper (joinNonEmpty (pfx :: l.path ++ [l.fragment]))

/-- The text after the first element of a joined list: every further element
behind the separator. -/
def joinTail (sep : String) : List String → String
  | [] => ""
  | x :: xs => sep ++ x ++ joinTail sep xs

/-- The entries of the combined error as the specification words them: for
every record in order a newline, a tab and the record's message. -/
def entryLines (h : Host) : List MissingEnvError → String
  | [] => ""
  | m :: ms => "\n\t" ++ m.Error h ++ entryLines h ms

/-- The ASCII host over an arbitrary environment table. -/
def asciiHostOf (environ : String → Option String) : Host where
  ToUpper := asciiUpper
  IsPrint := fun c => decide (32 ≤ c.toNat ∧ c.toNat ≤ 126)
  environ := environ

/-- The line of the combined error for one key, as the tests write it. -/
def missingLine (key : String) : String :=
  "\n\tmissing required environment variable \"" ++ key ++ "\""

/-- The keys among the given ones that have no non-empty value. -/
def unsetKeys (h : Host) (keys : List String) : List String :=
  keys.filter (fun k => decide (h.Getenv k = ""))

/-- The lines of the combined error for a list of keys, one after the other. -/
def missingLines : List String → String
  | [] => ""
  | key :: keys => missingLine key ++ missingLines keys

/-- The host with another environment table. -/
def Host.withEnviron (h : Host) (environ : String → Option String) : Host where
  ToUpper := h.ToUpper
  IsPrint := h.IsPrint
  environ := environ

/-- The schema with its tags rewritten and nothing else changed.  A field is
addressed by its position: the indices of the nested fields entered, then its
own index.  The new tag of a scalar field is `gs position tag`, the new tag of
a nested or optional-nested field is `gc position tag`; `pos` and `i` are the
position of the enclosing structure and the index of the first field. -/
def Fields.mapTags (gs gc : List Nat → StructTag → StructTag) (pos : List Nat) (i : Nat) :
    Fields → Fields
  | .nil => .nil
  | .cons name tag (.struct fields) rest =>
      .cons name (gc (pos ++ [i]) tag) (.struct (fields.mapTags gs gc (pos ++ [i]) 0))
        (rest.mapTags gs gc pos (i + 1))
  | .cons name tag (.ptr (.struct fields)) rest =>
      .cons name (gc (pos ++ [i]) tag) (.ptr (.struct (fields.mapTags gs gc (pos ++ [i]) 0)))
        (rest.mapTags gs gc pos (i + 1))
  | .cons name tag .basic rest =>
      .cons name (gs (pos ++ [i]) tag) .basic (rest.mapTags gs gc pos (i + 1))
  | .cons name tag (.ptr .basic) rest =>
      .cons name (gs (pos ++ [i]) tag) (.ptr .basic) (rest.mapTags gs gc pos (i + 1))
  | .cons name tag (.ptr (.ptr elem)) rest =>
      .cons name (gs (pos ++ [i]) tag) (.ptr (.ptr elem)) (rest.mapTags gs gc pos (i + 1))

/-- The tag with the key bound to a new value, every other key as before. -/
def StructTag.set (tag : StructTag) (key value : String) : StructTag :=
  (key, value) :: tag

/-- A structure with a required field without a key next to a keyed one
inside a nested structure that is itself tagged required with a default:
the nested field `Inner` has the tag `envconfig:"IN" required:"true" default:"y"`,
its fields are `A` with `required:"true"` and `B` with
`envconfig:"B" required:"true" default:"x"`. -/
def NestedUnkeyedConfig : Fields :=
  .cons "Inner" [("envconfig", "IN"), ("required", "true"), ("default", "y")]
    (.struct <|
      .cons "A" [("required", "true")] .basic <|
      .cons "B" [("envconfig", "B"), ("required", "true"), ("default", "x")] .basic .nil) <|
  .nil

/-- The rewriting that sets the `required` tag of every field without a key
fragment to the given value and leaves every keyed field as it is. -/
def requireUnkeyed (value : String) (_pos : List Nat) (tag : StructTag) : StructTag :=
  if tag.Get "envconfig" = "" then tag.set "required" value else tag

/-- The rewriting that sets the `required` and `default` tags of a field to
the given values. -/
def setRequiredDefault (required dflt : String) (_pos : List Nat) (tag : StructTag) :
    StructTag :=
  (tag.set "required" required).set "default" dflt

/-- The rewriting that sets the `default` tag of every field to the given
value. -/
def setDefault (dflt : String) (_pos : List Nat) (tag : StructTag) : StructTag :=
  tag.set "default" dflt

/-! ## Declared structure types

A Go program declares its structure types by name, and a declared type can
refer to itself through a pointer: `type Config struct { ...; parent *Config }`.
Such a type has no finite tree.  Here a type is an expression over the
declarations of the program, and the walk counts its nested activations. -/

mutual
/-- A type expression: a type of another kind, an anonymous structure, a
declared structure type by name, or a pointer. -/
inductive TypeExpr where
  | basic : TypeExpr
  | struct (fields : FieldDecls) : TypeExpr
  | named (name : String) : TypeExpr
  | ptr (elem : TypeExpr) : TypeExpr
/-- The fields of a structure type whose field types are type expressions. -/
inductive FieldDecls where
  | nil : FieldDecls
  | cons (Name : String) (Tag : StructTag) (Typ : TypeExpr) (rest : FieldDecls) : FieldDecls
end

/-- The fields the walk descends into for a field of the given type: those of
the structure when the kind is `Struct`, those of the element when the kind
is `Ptr` and the element's kind is `Struct`; `decls` gives the fields of a
declared structure type. -/
def nestedFields (decls : String → FieldDecls) : TypeExpr → Option FieldDecls
  | .struct fields => some fields
  | .named name => some (decls name)
  | .ptr (.struct fields) => some fields
  | .ptr (.named name) => some (decls name)
  | _ => none

/-- One activation of `findMissingRequiredVars` over type expressions: the
loop over the fields, with `recurse` standing for the recursive call.  The
result is `none` when a recursive call does not return.  The instance is not
carried: the source reads it only to choose between a nil pointer's fresh zero
value and the pointer's target, both of the field's element type, and
recurses in either case. -/
def walkFields (h : Host) (decls : String → FieldDecls)
    (recurse : String → FieldDecls → Option (List MissingEnvError)) (pfx : String) :
    FieldDecls → Option (List MissingEnvError)
  | .nil => some []
  | .cons name tag typ rest =>
      match nestedFields decls typ with
      | some fields =>
          match recurse (nextPrefix pfx (tag.Get "envconfig")) fields,
              walkFields h decls recurse pfx rest with
          | some inner, some others => some (inner ++ others)
          | _, _ => none
      | none =>
          let envTag := tag.Get "envconfig"
          let reqTag := tag.Get "required"
          match walkFields h decls recurse pfx rest with
          | some others =>
              some ((if reqTag = "true" ∧ envTag ≠ "" then
                  if h.Getenv (h.ToUpper (envKey pfx envTag)) = "" then
                    [{ StructField := name, EnvKey := h.ToUpper (envKey pfx envTag) }]
                  else []
                else []) ++ others)
          | none => none

/-- The walk over type expressions with at most `depth` activations nested in
one another: `none` when the recursion goes deeper. -/
def findMissingRequiredVarsWithin (h : Host) (decls : String → FieldDecls) :
    (depth : Nat) → String → FieldDecls → Option (List MissingEnvError)
  | 0 => fun _ _ => none
  | depth + 1 => walkFields h decls (findMissingRequiredVarsWithin h decls depth)

mutual
/-- A tree type as a type expression without names. -/
def GoType.toExpr : GoType → TypeExpr
  | .basic => .basic
  | .struct fields => .struct fields.toDecls
  | .ptr elem => .ptr elem.toExpr
/-- The fields of a tree schema as field declarations. -/
def Fields.toDecls : Fields → FieldDecls
  | .nil => .nil
  | .cons name tag typ rest => .cons name tag typ.toExpr rest.toDecls
end

/-- The nesting depth of a tree schema: the longest chain of nested and
optional-nested fields inside one another. -/
def Fields.nesting : Fields → Nat
  | .nil => 0
  | .cons _ _ (.struct fields) rest => max (fields.nesting + 1) rest.nesting
  | .cons _ _ (.ptr (.struct fields)) rest => max (fields.nesting + 1) rest.nesting
  | .cons _ _ _ rest => rest.nesting

/-- The fields of
`type Config struct { Name string "envconfig:NAME required:true"; parent *Config }`. -/
def SelfConfig : FieldDecls :=
  .cons "Name" [("envconfig", "NAME"), ("required", "true")] .basic <|
  .cons "parent" [] (.ptr (.named "Config")) .nil

/-- The declarations of a program whose only declared structure type is
`Config`. -/
def selfDecls (_name : String) : FieldDecls := SelfConfig

/-! ## Lemmas on the walk -/

theorem scalar_step (h : Host) (pfx name : String) (tag : StructTag) (path : List String)
    (ls : List Leaf) :
    (if tag.Get "required" = "true" ∧ tag.Get "envconfig" ≠ "" then
        if h.Getenv (h.ToUpper (envKey (path.foldl nextPrefix pfx) (tag.Get "envconfig"))) = "" then
          [{ StructField := name,
             EnvKey := h.ToUpper (envKey (path.foldl nextPrefix pfx) (tag.Get "envconfig")) }]
        else []
      else []) ++ (ls.filter (Leaf.isMissing h pfx)).map (Leaf.record h pfx)
      = ((({ Name := name, Tag := tag, path := path } : Leaf) :: ls).filter
          (Leaf.isMissing h pfx)).map (Leaf.record h pfx) := by
  by_cases hr : tag.Get "required" = "true" <;> by_cases he : tag.Get "envconfig" = ""
    <;> by_cases hg : h.Getenv (h.ToUpper (envKey (path.foldl nextPrefix pfx) (tag.Get "envconfig"))) = ""
    <;> simp [List.filter_cons, Leaf.isMissing, Leaf.required, Leaf.fragment, Leaf.effectiveKey,
          Leaf.record, hr, he, hg]

theorem leaves_path_foldl (h : Host) (pfx : String) :
    ∀ (t : Fields) (path : List String) (v : t.Values),
      findMissingRequiredVars h (path.foldl nextPrefix pfx) t v
        = ((leaves path t).filter (Leaf.isMissing h pfx)).map (Leaf.record h pfx)
  | .nil, _, _ => by simp [findMissingRequiredVars, leaves]
  | .cons name tag (.struct fields) rest, path, (fv, vs) => by
      have h1 := leaves_path_foldl h pfx fields (path ++ [tag.Get "envconfig"]) fv
      have h2 := leaves_path_foldl h pfx rest path vs
      simp only [List.foldl_append, List.foldl_cons, List.foldl_nil] at h1
      simp [findMissingRequiredVars, leaves, h1, h2]
  | .cons name tag (.ptr (.struct fields)) rest, path, (fv, vs) => by
      have h2 := leaves_path_foldl h pfx rest path vs
      cases fv with
      | none =>
        have h1 := leaves_path_foldl h pfx fields (path ++ [tag.Get "envconfig"]) fields.Zero
        simp only [List.foldl_append, List.foldl_cons, List.foldl_nil] at h1
        simp [findMissingRequiredVars, leaves, h1, h2]
      | some x =>
        have h1 := leaves_path_foldl h pfx fields (path ++ [tag.Get "envconfig"]) x
        simp only [List.foldl_append, List.foldl_cons, List.foldl_nil] at h1
        simp [findMissingRequiredVars, leaves, h1, h2]
  | .cons name tag .basic rest, path, (fv, vs) => by
      have h2 := leaves_path_foldl h pfx rest path vs
      simp only [findMissingRequiredVars, leaves, h2]
      exact scalar_step h pfx name tag path _
  | .cons name tag (.ptr .basic) rest, path, (fv, vs) => by
      have h2 := leaves_path_foldl h pfx rest path vs
      simp only [findMissingRequiredVars, leaves, h2]
      exact scalar_step h pfx name tag path _
  | .cons name tag (.ptr (.ptr _)) rest, path, (fv, vs) => by
      have h2 := leaves_path_foldl h pfx rest path vs
      simp only [findMissingRequiredVars, leaves, h2]
      exact scalar_step h pfx name tag path _

/-! ## Lemmas on joined strings -/

theorem intercalate_go_eq (sep : String) :
    ∀ (xs : List String) (acc : String), String.intercalate.go acc sep xs = acc ++ joinTail sep xs
  | [], acc => by simp [String.intercalate.go, joinTail]
  | x :: xs, acc => by
      simp [String.intercalate.go, joinTail, intercalate_go_eq sep xs, String.append_assoc]

theorem intercalate_cons (sep x : String) (xs : List String) :
    sep.intercalate (x :: xs) = x ++ joinTail sep xs := by
  simp [String.intercalate, intercalate_go_eq]

theorem joinTail_append (sep : String) (ys : List String) :
    ∀ xs : List String, joinTail sep (xs ++ ys) = joinTail sep xs ++ joinTail sep ys
  | [] => by simp [joinTail]
  | x :: xs => by simp [joinTail, joinTail_append sep ys xs, String.append_assoc]

theorem append_ne_empty_left {a b : String} (ha : a ≠ "") : a ++ b ≠ "" := by
  intro hab
  apply ha
  have hd := congrArg String.data hab
  simp only [String.data_append] at hd
  apply String.ext
  simp at hd
  simpa using hd.1

theorem filter_notEmpty_snoc (xs : List String) (f : String) :
    (xs ++ [f]).filter notEmpty
      = if f = "" then xs.filter notEmpty else xs.filter notEmpty ++ [f] := by
  by_cases hf : f = "" <;> simp [List.filter_append, List.filter_cons, notEmpty, hf]

theorem joinNonEmpty_eq_empty_iff (xs : List String) :
    joinNonEmpty xs = "" ↔ xs.filter notEmpty = [] := by
  unfold joinNonEmpty
  cases hf : xs.filter notEmpty with
  | nil => simp [String.intercalate]
  | cons a as =>
    have ha : a ∈ xs.filter notEmpty := by rw [hf]; exact List.mem_cons_self _ _
    have hne : a ≠ "" := by
      have := (List.mem_filter.mp ha).2
      simpa [notEmpty] using this
    simp [intercalate_cons, append_ne_empty_left hne]

theorem joinNonEmpty_snoc (xs : List String) (f : String) (hf : f ≠ "") :
    joinNonEmpty (xs ++ [f]) = envKey (joinNonEmpty xs) f := by
  unfold envKey
  by_cases he : joinNonEmpty xs = ""
  · have hnil := (joinNonEmpty_eq_empty_iff xs).mp he
    rw [if_neg (by simpa using he)]
    unfold joinNonEmpty
    rw [filter_notEmpty_snoc, if_neg hf, hnil]
    simp [String.intercalate, String.intercalate.go]
  · rw [if_pos (by simpa using he)]
    unfold joinNonEmpty
    cases hl : xs.filter notEmpty with
    | nil => exact absurd ((joinNonEmpty_eq_empty_iff xs).mpr hl) he
    | cons a as =>
      rw [filter_notEmpty_snoc, if_neg hf, hl]
      simp [intercalate_cons, joinTail_append, joinTail, String.append_assoc]

theorem joinNonEmpty_snoc_nextPrefix (xs : List String) (f : String) :
    joinNonEmpty (xs ++ [f]) = nextPrefix (joinNonEmpty xs) f := by
  by_cases hf : f = ""
  · subst hf
    have h1 : joinNonEmpty (xs ++ [""]) = joinNonEmpty xs := by
      unfold joinNonEmpty
      rw [filter_notEmpty_snoc, if_pos rfl]
    rw [h1]
    by_cases he : joinNonEmpty xs = "" <;> simp [nextPrefix, he]
  · rw [joinNonEmpty_snoc xs f hf]
    by_cases he : joinNonEmpty xs = "" <;> simp [nextPrefix, envKey, he, hf]

theorem foldl_nextPrefix_joinNonEmpty :
    ∀ (path xs : List String),
      path.foldl nextPrefix (joinNonEmpty xs) = joinNonEmpty (xs ++ path)
  | [], xs => by simp
  | f :: path, xs => by
      rw [List.foldl_cons, ← joinNonEmpty_snoc_nextPrefix, foldl_nextPrefix_joinNonEmpty path]
      simp

theorem joinNonEmpty_singleton (p : String) : joinNonEmpty [p] = p := by
  by_cases hp : p = "" <;>
    simp [joinNonEmpty, notEmpty, hp, String.intercalate, String.intercalate.go]

theorem effectiveKey_eq_joinedKey (h : Host) (pfx : String) (l : Leaf) (hf : l.fragment ≠ "") :
    l.effectiveKey h pfx = l.joinedKey h pfx := by
  unfold Leaf.effectiveKey Leaf.joinedKey
  have h1 := foldl_nextPrefix_joinNonEmpty l.path [pfx]
  rw [joinNonEmpty_singleton] at h1
  rw [h1, ← joinNonEmpty_snoc _ _ hf]
  simp

theorem walk_eq_missing_leaves (h : Host) (pfx : String) (t : Fields) (v : t.Values) :
    findMissingRequiredVars h pfx t v
      = ((leaves [] t).filter (Leaf.isMissing h pfx)).map (Leaf.record h pfx) := by
  simpa using leaves_path_foldl h pfx t [] v

theorem filter_map_eq_filterMap {α β : Type} (p : α → Bool) (f : α → β) :
    ∀ xs : List α, (xs.filter p).map f = xs.filterMap (fun x => if p x = true then some (f x) else none)
  | [] => rfl
  | x :: xs => by
      by_cases hp : p x = true <;>
        simp [List.filter_cons, List.filterMap_cons, hp, filter_map_eq_filterMap p f xs]

theorem missing_record_joinedKey (h : Host) (pfx : String) (l : Leaf) :
    (if l.isMissing h pfx = true then some (l.record h pfx) else none)
      = if l.required = true ∧ l.fragment ≠ "" ∧ h.Getenv (l.joinedKey h pfx) = "" then
          some { StructField := l.Name, EnvKey := l.joinedKey h pfx }
        else none := by
  by_cases hf : l.fragment = ""
  · simp [Leaf.isMissing, hf]
  · rw [← effectiveKey_eq_joinedKey h pfx l hf]
    by_cases hr : l.required = true <;>
      by_cases hg : h.Getenv (l.effectiveKey h pfx) = "" <;>
      simp [Leaf.isMissing, Leaf.record, hf, hr, hg]

theorem getenv_setenv_empty (h : Host) (key k : String) :
    (h.setenv key "").Getenv k = (h.unsetenv key).Getenv k := by
  by_cases hk : k = key <;> simp [Host.Getenv, Host.setenv, Host.unsetenv, Function.update, hk]

theorem isMissing_congr (h1 h2 : Host) (hu : h1.ToUpper = h2.ToUpper)
    (hg : ∀ k, h1.Getenv k = h2.Getenv k) (pfx : String) (l : Leaf) :
    (l.isMissing h1 pfx = l.isMissing h2 pfx) ∧ (l.record h1 pfx = l.record h2 pfx) := by
  simp [Leaf.isMissing, Leaf.record, Leaf.effectiveKey, hu, hg]

theorem walk_congr (h1 h2 : Host) (hu : h1.ToUpper = h2.ToUpper)
    (hg : ∀ k, h1.Getenv k = h2.Getenv k) (pfx : String) (t : Fields) (v : t.Values) :
    findMissingRequiredVars h1 pfx t v = findMissingRequiredVars h2 pfx t v := by
  rw [walk_eq_missing_leaves, walk_eq_missing_leaves]
  have e1 : Leaf.isMissing h1 pfx = Leaf.isMissing h2 pfx :=
    funext fun l => (isMissing_congr h1 h2 hu hg pfx l).1
  have e2 : Leaf.record h1 pfx = Leaf.record h2 pfx :=
    funext fun l => (isMissing_congr h1 h2 hu hg pfx l).2
  rw [e1, e2]

/-! ## The claims on the walk -/

/-- C1: for every prefix, schema, instance and environment,
`findMissingRequiredVars` returns exactly the records (declared field name,
effective key) of the scalar leaves that are required, declare a non-empty key
fragment and whose effective key has no non-empty value in the environment:
the depth-first, field-declaration-order list of all scalar leaves, filtered
by that condition, each leaf giving one record. -/
theorem findMissingRequiredVars_exactly_missing_leaves (h : Host) (pfx : String)
    (t : Fields) (v : t.Values) :
    findMissingRequiredVars h pfx t v
      = ((leaves [] t).filter
          (fun l => l.required && decide (l.fragment ≠ "")
            && decide (h.Getenv (l.effectiveKey h pfx) = ""))).map
          (fun l => { StructField := l.Name, EnvKey := l.effectiveKey h pfx }) :=
  walk_eq_missing_leaves h pfx t v

/-- C2: the key that `findMissingRequiredVars` looks up and reports for a
required scalar leaf with a non-empty fragment is the upper case of the
underscore-joined non-empty members of caller prefix, enclosing fragments and
own fragment; with an empty prefix, nested fragment `NESTED` and leaf
fragment `REQUIRED` the reported key is `NESTED_REQUIRED`. -/
theorem findMissingRequiredVars_key_is_joined (h : Host) (pfx : String)
    (t : Fields) (v : t.Values) :
    findMissingRequiredVars h pfx t v
        = (leaves [] t).filterMap (fun l =>
            if l.required = true ∧ l.fragment ≠ "" ∧
                h.Getenv (h.ToUpper (joinNonEmpty (pfx :: l.path ++ [l.fragment]))) = "" then
              some { StructField := l.Name,
                     EnvKey := h.ToUpper (joinNonEmpty (pfx :: l.path ++ [l.fragment])) }
            else none)
      ∧ findMissingRequiredVars (asciiHost []) ""
          (.cons "Nested" [("envconfig", "NESTED")]
            (.struct (.cons "Required" [("envconfig", "REQUIRED"), ("required", "true")]
              .basic .nil)) .nil) (("", ()), ())
        = [{ StructField := "Required", EnvKey := "NESTED_REQUIRED" }] := by
  refine ⟨?_, by decide⟩
  rw [walk_eq_missing_leaves, filter_map_eq_filterMap]
  exact congrArg (fun f => List.filterMap f (leaves [] t))
    (funext fun l => missing_record_joinedKey h pfx l)

/-- C9: the walk does not depend on the instance: any two instances of a
schema give the same list, so a nil optional nested field is walked like a
populated one and its missing required descendants are reported. -/
theorem findMissingRequiredVars_instance_independent (h : Host) (pfx : String)
    (t : Fields) (v1 v2 : t.Values) :
    findMissingRequiredVars h pfx t v1 = findMissingRequiredVars h pfx t v2 := by
  rw [walk_eq_missing_leaves, walk_eq_missing_leaves]

/-- C10: a key bound to the empty string counts as absent: the walk under an
environment that binds a key to the empty string equals the walk under the
same environment with that key removed. -/
theorem findMissingRequiredVars_empty_value_as_unset (h : Host) (key pfx : String)
    (t : Fields) (v : t.Values) :
    findMissingRequiredVars (h.setenv key "") pfx t v
      = findMissingRequiredVars (h.unsetenv key) pfx t v :=
  walk_congr (h.setenv key "") (h.unsetenv key) rfl (getenv_setenv_empty h key) pfx t v

/-! ## Lemmas on `Process` -/

theorem contains_requiredKeyAbsent (key : String) :
    Contains (BinderError.requiredKeyAbsent key).Error "required key" = true := by
  simp only [Contains, decide_eq_true_eq, BinderError.Error, String.data_append]
  exact ⟨[], " ".data ++ key.data ++ " missing value".data, by simp [List.append_assoc]⟩

theorem joinTail_messages (h : Host) :
    ∀ ms : List MissingEnvError,
      joinTail "\n\t" (ms.map (MissingEnvError.Error h)) = entryLines h ms
  | [] => rfl
  | m :: ms => by simp [joinTail, entryLines, joinTail_messages h ms]

theorem combined_text (h : Host) (ms : List MissingEnvError) (hne : ms ≠ []) :
    "configuration error:\n\t" ++ "\n\t".intercalate (ms.map (MissingEnvError.Error h))
      = "configuration error:" ++ entryLines h ms := by
  cases ms with
  | nil => exact absurd rfl hne
  | cons m ms =>
    have hh : "configuration error:\n\t" = "configuration error:" ++ "\n\t" := by decide
    rw [List.map_cons, intercalate_cons, joinTail_messages, hh]
    simp only [entryLines, String.append_assoc]

theorem Process_of_contains (h : Host) (e : BinderError) (pfx : String) (t : Fields)
    (v : t.Values) (hc : Contains e.Error "required key" = true)
    (hne : findMissingRequiredVars h pfx t v ≠ []) :
    Process h (some e) pfx (.ptrToStruct t v)
      = .ret (some (.errorf
          ("configuration error:" ++ entryLines h (findMissingRequiredVars h pfx t v)))) := by
  have hlen : (findMissingRequiredVars h pfx t v).length > 0 := List.length_pos.mpr hne
  simp only [Process, hc, if_true, hlen, combined_text h _ hne]

theorem Process_of_walk_empty (h : Host) (e : BinderError) (pfx : String) (t : Fields)
    (v : t.Values) (hz : findMissingRequiredVars h pfx t v = []) :
    Process h (some e) pfx (.ptrToStruct t v) = .ret (some (.binder e)) := by
  by_cases hc : Contains e.Error "required key" = true <;> simp [Process, hc, hz]

theorem Process_of_not_contains (h : Host) (e : BinderError) (pfx : String) (spec : Target)
    (hc : Contains e.Error "required key" = false) :
    Process h (some e) pfx spec = .ret (some (.binder e)) := by
  simp [Process, hc]

theorem entryLines_last (h : Host) :
    ∀ ms : List MissingEnvError, ms ≠ [] →
      ∃ body : List Char, (entryLines h ms).data = body ++ [Char.ofNat 34]
  | [], hne => absurd rfl hne
  | m :: [], _ =>
      ⟨"\n\t".data ++ "missing required environment variable ".data
          ++ (Char.ofNat 34 :: m.EnvKey.data.flatMap (appendEscapedRune h)), by
        simp [entryLines, MissingEnvError.Error, Quote, String.data_append, List.append_assoc]⟩
  | m :: m2 :: ms, _ => by
      obtain ⟨body, hb⟩ := entryLines_last h (m2 :: ms) (List.cons_ne_nil _ _)
      refine ⟨"\n\t".data ++ (m.Error h).data ++ body, ?_⟩
      have : entryLines h (m :: m2 :: ms) = "\n\t" ++ m.Error h ++ entryLines h (m2 :: ms) := rfl
      rw [this, String.data_append, String.data_append, hb]
      simp [List.append_assoc]

theorem quote_plain (h : Host) (s : String)
    (hs : ∀ c ∈ s.data, h.IsPrint c = true ∧ c ≠ Char.ofNat 34 ∧ c ≠ Char.ofNat 92) :
    Quote h s = "\"" ++ s ++ "\"" := by
  have hflat : ∀ cs : List Char,
      (∀ c ∈ cs, h.IsPrint c = true ∧ c ≠ Char.ofNat 34 ∧ c ≠ Char.ofNat 92) →
      cs.flatMap (appendEscapedRune h) = cs := by
    intro cs
    induction cs with
    | nil => intro _; rfl
    | cons c cs ih =>
      intro hcs
      have hc := hcs c (List.mem_cons_self _ _)
      have htl := ih (fun d hd => hcs d (List.mem_cons_of_mem _ hd))
      rw [List.flatMap_cons, htl]
      simp [appendEscapedRune, hc.1, hc.2.1, hc.2.2]
  apply String.ext
  simp only [Quote, String.data_append, hflat s.data hs]
  rfl

/-! ## The claims on `Process` and on the error text -/

/-- C3: when the binder fails with a required-key-absent error and the walk
returns a non-empty list, `Process` returns an error whose text is exactly the
header `configuration error:` followed, for each record in walk order, by a
newline, a tab and the record's message; nothing follows the last entry, the
text ends with the closing double quote of the last message. -/
theorem Process_combined_error_text (h : Host) (key pfx : String) (t : Fields)
    (v : t.Values) (hne : findMissingRequiredVars h pfx t v ≠ []) :
    Process h (some (.requiredKeyAbsent key)) pfx (.ptrToStruct t v)
        = .ret (some (.errorf
            ("configuration error:" ++ entryLines h (findMissingRequiredVars h pfx t v))))
      ∧ ("configuration error:"
          ++ entryLines h (findMissingRequiredVars h pfx t v)).data.getLast?
        = some (Char.ofNat 34) := by
  refine ⟨Process_of_contains h _ pfx t v (contains_requiredKeyAbsent key) hne, ?_⟩
  obtain ⟨body, hb⟩ := entryLines_last h _ hne
  rw [String.data_append, hb, ← List.append_assoc]
  exact List.getLast?_concat _

/-- The witness of C3: the test schema with only `WITH_DEFAULT` set. -/
theorem Process_combined_error_text_witness :
    findMissingRequiredVars (asciiHost [("WITH_DEFAULT", "custom_default")]) ""
        TestConfig TestConfig.Zero ≠ []
      ∧ (Process (asciiHost [("WITH_DEFAULT", "custom_default")])
            (some (.requiredKeyAbsent "SIMPLE")) "" (.ptrToStruct TestConfig TestConfig.Zero)
          = .ret (some (.errorf
              ("configuration error:" ++ entryLines (asciiHost [("WITH_DEFAULT", "custom_default")])
                (findMissingRequiredVars (asciiHost [("WITH_DEFAULT", "custom_default")]) ""
                  TestConfig TestConfig.Zero))))
        ∧ ("configuration error:"
            ++ entryLines (asciiHost [("WITH_DEFAULT", "custom_default")])
                (findMissingRequiredVars (asciiHost [("WITH_DEFAULT", "custom_default")]) ""
                  TestConfig TestConfig.Zero)).data.getLast?
          = some (Char.ofNat 34)) :=
  ⟨by decide,
   Process_combined_error_text (asciiHost [("WITH_DEFAULT", "custom_default")]) "SIMPLE" ""
     TestConfig TestConfig.Zero (by decide)⟩

/-- C4, as stated, fails: for the key `A"B` the message holds the key with its
double quote escaped by a backslash, not the key unchanged. -/
theorem MissingEnvError_Error_escapes_counterexample :
    MissingEnvError.Error (asciiHost []) { StructField := "Host", EnvKey := "A\"B" }
        = "missing required environment variable \"A\\\"B\""
      ∧ MissingEnvError.Error (asciiHost []) { StructField := "Host", EnvKey := "A\"B" }
        ≠ "missing required environment variable \"" ++ "A\"B" ++ "\"" := by
  decide

/-- C4, amended: the message is the fixed words, a space and the key as a Go
quoted string, whatever `StructField` is; for a key made of printable
characters other than the double quote and the backslash that is the key
unchanged between one pair of double quotes. -/
theorem MissingEnvError_Error_text (h : Host) (e : MissingEnvError)
    (hk : ∀ c ∈ e.EnvKey.data, h.IsPrint c = true ∧ c ≠ Char.ofNat 34 ∧ c ≠ Char.ofNat 92) :
    e.Error h = "missing required environment variable \"" ++ e.EnvKey ++ "\""
      ∧ e.Error h = "missing required environment variable " ++ Quote h e.EnvKey := by
  refine ⟨?_, rfl⟩
  have hw : "missing required environment variable \""
      = "missing required environment variable " ++ "\"" := by decide
  rw [MissingEnvError.Error, quote_plain h e.EnvKey hk, hw]
  simp only [String.append_assoc]

/-- The witness of C4: the key `DB_HOST` of the package's test. -/
theorem MissingEnvError_Error_text_witness :
    (∀ c ∈ "DB_HOST".data,
        (asciiHost []).IsPrint c = true ∧ c ≠ Char.ofNat 34 ∧ c ≠ Char.ofNat 92)
      ∧ (MissingEnvError.Error (asciiHost []) { StructField := "Host", EnvKey := "DB_HOST" }
          = "missing required environment variable \"" ++ "DB_HOST" ++ "\""
        ∧ MissingEnvError.Error (asciiHost []) { StructField := "Host", EnvKey := "DB_HOST" }
          = "missing required environment variable " ++ Quote (asciiHost []) "DB_HOST") :=
  ⟨by decide,
   MissingEnvError_Error_text (asciiHost []) { StructField := "Host", EnvKey := "DB_HOST" }
     (by decide)⟩

/-- C5: the code at the failing input.  With `PORT=required key` for an
integer field and `NAME` unset the binder fails with a `ParseError`, an error
of another class than required-key-absent.  Its text echoes the value, so the
test for `required key` in `Process` holds, and `Process` returns the combined
error of the walk in place of the binder's error, where the claim, and the
comment in `Process` that only an error about a missing required value is
enhanced, ask for the binder's error unchanged. -/
theorem Process_replaces_parse_error :
    portParseError.isRequiredKeyAbsent = false
      ∧ Process (asciiHost [("PORT", "required key")]) (some portParseError) ""
          (.ptrToStruct PortConfig PortConfig.Zero)
        = .ret (some (.errorf
            "configuration error:\n\tmissing required environment variable \"NAME\""))
      ∧ Process (asciiHost [("PORT", "required key")]) (some portParseError) ""
          (.ptrToStruct PortConfig PortConfig.Zero)
        ≠ .ret (some (.binder portParseError)) := by
  decide

/-- C6: `Process` returns success exactly when the binder does; when the
binder fails, a target it rejects being answered with its invalid-specification
error, `Process` returns an error: the binder's own, or the combined error
of the walk. -/
theorem Process_success_iff_binder_success (h : Host) (err : Option BinderError)
    (pfx : String) (spec : Target)
    (hb : ∀ e, err = some e → spec.isPtrToStruct = false → e = .invalidSpecification) :
    (Process h err pfx spec = .ret none ↔ err = none)
      ∧ (err = none → Process h err pfx spec = .ret none)
      ∧ (∀ e, err = some e →
          Process h err pfx spec = .ret (some (.binder e))
            ∨ ∃ t v, spec = .ptrToStruct t v
                ∧ Process h err pfx spec = .ret (some (.errorf
                    ("configuration error:"
                      ++ entryLines h (findMissingRequiredVars h pfx t v))))) := by
  cases err with
  | none => simp [Process]
  | some e =>
    have key : Process h (some e) pfx spec = .ret (some (.binder e))
        ∨ ∃ t v, spec = .ptrToStruct t v
            ∧ Process h (some e) pfx spec = .ret (some (.errorf
                ("configuration error:"
                  ++ entryLines h (findMissingRequiredVars h pfx t v)))) := by
      cases spec with
      | ptrToStruct t v =>
        by_cases hc : Contains e.Error "required key" = true
        · by_cases hz : findMissingRequiredVars h pfx t v = []
          · exact Or.inl (Process_of_walk_empty h e pfx t v hz)
          · exact Or.inr ⟨t, v, rfl, Process_of_contains h e pfx t v hc hz⟩
        · exact Or.inl (Process_of_not_contains h e pfx _ (by simpa using hc))
      | nil =>
        rw [hb e rfl rfl]
        exact Or.inl (Process_of_not_contains h _ pfx _ (by decide))
      | nonPointer =>
        rw [hb e rfl rfl]
        exact Or.inl (Process_of_not_contains h _ pfx _ (by decide))
      | ptrToNonStruct =>
        rw [hb e rfl rfl]
        exact Or.inl (Process_of_not_contains h _ pfx _ (by decide))
    refine ⟨?_, ?_, ?_⟩
    · constructor
      · intro hp
        rcases key with hk | ⟨t, v, _, hk⟩ <;> rw [hk] at hp <;> cases hp
      · intro hn
        cases hn
    · intro hn
      cases hn
    · intro e2 he2
      cases he2
      exact key

/-- The witness of C6: the test schema with `SIMPLE` unset. -/
theorem Process_success_iff_binder_success_witness :
    (∀ e, some (BinderError.requiredKeyAbsent "SIMPLE") = some e →
        (Target.ptrToStruct TestConfig TestConfig.Zero).isPtrToStruct = false →
        e = .invalidSpecification)
      ∧ ((Process (asciiHost []) (some (.requiredKeyAbsent "SIMPLE")) ""
            (.ptrToStruct TestConfig TestConfig.Zero) = .ret none
          ↔ some (BinderError.requiredKeyAbsent "SIMPLE") = none)
        ∧ (some (BinderError.requiredKeyAbsent "SIMPLE") = none →
            Process (asciiHost []) (some (.requiredKeyAbsent "SIMPLE")) ""
              (.ptrToStruct TestConfig TestConfig.Zero) = .ret none)
        ∧ (∀ e, some (BinderError.requiredKeyAbsent "SIMPLE") = some e →
            Process (asciiHost []) (some (.requiredKeyAbsent "SIMPLE")) ""
                (.ptrToStruct TestConfig TestConfig.Zero) = .ret (some (.binder e))
              ∨ ∃ t v, Target.ptrToStruct TestConfig TestConfig.Zero = .ptrToStruct t v
                  ∧ Process (asciiHost []) (some (.requiredKeyAbsent "SIMPLE")) ""
                      (.ptrToStruct TestConfig TestConfig.Zero)
                    = .ret (some (.errorf
                        ("configuration error:"
                          ++ entryLines (asciiHost [])
                              (findMissingRequiredVars (asciiHost []) "" t v)))))) :=
  ⟨fun _ _ hf => absurd hf (by decide),
   Process_success_iff_binder_success (asciiHost []) (some (.requiredKeyAbsent "SIMPLE")) ""
     (.ptrToStruct TestConfig TestConfig.Zero) (fun _ _ hf => absurd hf (by decide))⟩

/-- C7: when the binder fails with a required-key-absent error and the walk
finds nothing, `Process` returns the binder's error unchanged, not a header
without entries. -/
theorem Process_walk_empty_returns_binder_error (h : Host) (key pfx : String) (t : Fields)
    (v : t.Values) (hz : findMissingRequiredVars h pfx t v = []) :
    Process h (some (.requiredKeyAbsent key)) pfx (.ptrToStruct t v)
      = .ret (some (.binder (.requiredKeyAbsent key))) :=
  Process_of_walk_empty h _ pfx t v hz

/-- The witness of C7: a required field without a key, which the binder looks
up under its field name and the walk skips. -/
theorem Process_walk_empty_returns_binder_error_witness :
    findMissingRequiredVars (asciiHost []) "" UntaggedOnly UntaggedOnly.Zero = []
      ∧ Process (asciiHost []) (some (.requiredKeyAbsent "A")) ""
          (.ptrToStruct UntaggedOnly UntaggedOnly.Zero)
        = .ret (some (.binder (.requiredKeyAbsent "A"))) :=
  ⟨by decide,
   Process_walk_empty_returns_binder_error (asciiHost []) "A" "" UntaggedOnly UntaggedOnly.Zero
     (by decide)⟩

/-- C8: the code at the failing input.  For a structure with a required
field `A` without an `envconfig` tag and a required field `B` with the tag
`B`, and an empty environment, the binder reports the key `A`.  The walk
skips `A`, which has no key fragment, so `Process` replaces the binder's
error by a combined error that lists `B` only: the key the binder reported
is not among the keys listed, where the claim, and the comments that all
fields are checked for missing required variables, ask for it. -/
theorem Process_combined_error_omits_binder_key :
    Process (asciiHost []) (some (.requiredKeyAbsent "A")) ""
        (.ptrToStruct UntaggedConfig UntaggedConfig.Zero)
      = .ret (some (.errorf
          "configuration error:\n\tmissing required environment variable \"B\""))
    ∧ "A" ∉ (findMissingRequiredVars (asciiHost []) "" UntaggedConfig
              UntaggedConfig.Zero).map MissingEnvError.EnvKey := by
  decide

/-! ## The schema of the tests -/

theorem walk_TestConfig (environ : String → Option String) (v : TestConfig.Values) :
    findMissingRequiredVars (asciiHostOf environ) "" TestConfig v
      = (unsetKeys (asciiHostOf environ) ["SIMPLE"]).map (fun k => ⟨"Simple", k⟩)
        ++ (unsetKeys (asciiHostOf environ) ["NESTED_REQUIRED"]).map (fun k => ⟨"Required", k⟩)
        ++ (unsetKeys (asciiHostOf environ) ["PTR_REQUIRED"]).map (fun k => ⟨"Required", k⟩) := by
  rw [walk_eq_missing_leaves]
  have hl : leaves [] TestConfig
      = [⟨"Simple", [("envconfig", "SIMPLE"), ("required", "true")], []⟩,
         ⟨"WithDefault", [("envconfig", "WITH_DEFAULT"), ("default", "default_value")], []⟩,
         ⟨"Required", [("envconfig", "REQUIRED"), ("required", "true")], ["NESTED"]⟩,
         ⟨"Optional", [("envconfig", "OPTIONAL")], ["NESTED"]⟩,
         ⟨"Required", [("envconfig", "REQUIRED"), ("required", "true")], ["PTR"]⟩] := by
    decide
  rw [hl]
  have k1 : Leaf.effectiveKey (asciiHostOf environ) ""
      ⟨"Simple", [("envconfig", "SIMPLE"), ("required", "true")], []⟩ = "SIMPLE" := by rfl
  have k2 : Leaf.effectiveKey (asciiHostOf environ) ""
      ⟨"Required", [("envconfig", "REQUIRED"), ("required", "true")], ["NESTED"]⟩
        = "NESTED_REQUIRED" := by rfl
  have k3 : Leaf.effectiveKey (asciiHostOf environ) ""
      ⟨"Required", [("envconfig", "REQUIRED"), ("required", "true")], ["PTR"]⟩
        = "PTR_REQUIRED" := by rfl
  by_cases h1 : (asciiHostOf environ).Getenv "SIMPLE" = "" <;>
  by_cases h2 : (asciiHostOf environ).Getenv "NESTED_REQUIRED" = "" <;>
  by_cases h3 : (asciiHostOf environ).Getenv "PTR_REQUIRED" = "" <;>
  simp [List.filter_cons, Leaf.isMissing, Leaf.record, Leaf.required, Leaf.fragment,
    StructTag.Get, List.lookup, k1, k2, k3, h1, h2, h3, unsetKeys]

theorem entryLines_TestConfig (environ : String → Option String) (v : TestConfig.Values) :
    entryLines (asciiHostOf environ) (findMissingRequiredVars (asciiHostOf environ) "" TestConfig v)
      = missingLines (unsetKeys (asciiHostOf environ)
          ["SIMPLE", "NESTED_REQUIRED", "PTR_REQUIRED"]) := by
  rw [walk_TestConfig]
  by_cases h1 : (asciiHostOf environ).Getenv "SIMPLE" = "" <;>
  by_cases h2 : (asciiHostOf environ).Getenv "NESTED_REQUIRED" = "" <;>
  by_cases h3 : (asciiHostOf environ).Getenv "PTR_REQUIRED" = "" <;>
  simp only [unsetKeys, List.filter_cons, List.filter_nil, h1, h2, h3, decide_True, decide_False,
    if_true, if_false, List.map_cons, List.map_nil, List.nil_append, List.cons_append,
    List.append_nil, Bool.false_eq_true] <;>
  rfl

theorem walk_TestConfig_keys (environ : String → Option String) (v : TestConfig.Values) :
    (findMissingRequiredVars (asciiHostOf environ) "" TestConfig v).map MissingEnvError.EnvKey
      = unsetKeys (asciiHostOf environ) ["SIMPLE", "NESTED_REQUIRED", "PTR_REQUIRED"] := by
  rw [walk_TestConfig]
  by_cases h1 : (asciiHostOf environ).Getenv "SIMPLE" = "" <;>
  by_cases h2 : (asciiHostOf environ).Getenv "NESTED_REQUIRED" = "" <;>
  by_cases h3 : (asciiHostOf environ).Getenv "PTR_REQUIRED" = "" <;>
  simp [unsetKeys, List.filter_cons, h1, h2, h3]

set_option maxRecDepth 100000 in
/-- C11: for the schema `TestConfig`, an empty prefix and a required-key-absent
binder failure, whenever at least one of `SIMPLE`, `NESTED_REQUIRED`,
`PTR_REQUIRED` has no non-empty value, `Process` returns the header followed
by one newline-and-tab line per such key, in that order; with only
`WITH_DEFAULT=custom_default` set the text names all three. -/
theorem Process_TestConfig_lists_unset_keys (environ : String → Option String) (key : String)
    (v : TestConfig.Values)
    (hne : unsetKeys (asciiHostOf environ) ["SIMPLE", "NESTED_REQUIRED", "PTR_REQUIRED"] ≠ []) :
    Process (asciiHostOf environ) (some (.requiredKeyAbsent key)) "" (.ptrToStruct TestConfig v)
        = .ret (some (.errorf ("configuration error:"
            ++ missingLines (unsetKeys (asciiHostOf environ)
                ["SIMPLE", "NESTED_REQUIRED", "PTR_REQUIRED"]))))
      ∧ Process (asciiHost [("WITH_DEFAULT", "custom_default")])
          (some (.requiredKeyAbsent "SIMPLE")) "" (.ptrToStruct TestConfig TestConfig.Zero)
        = .ret (some (.errorf
            "configuration error:\n\tmissing required environment variable \"SIMPLE\"\n\tmissing required environment variable \"NESTED_REQUIRED\"\n\tmissing required environment variable \"PTR_REQUIRED\"")) := by
  refine ⟨?_, by decide⟩
  have hw : findMissingRequiredVars (asciiHostOf environ) "" TestConfig v ≠ [] := by
    intro hz
    apply hne
    rw [← walk_TestConfig_keys environ v, hz]
    rfl
  rw [Process_of_contains _ _ _ _ _ (contains_requiredKeyAbsent key) hw, entryLines_TestConfig]

set_option maxRecDepth 100000 in
/-- The witness of C11: only `WITH_DEFAULT` is set. -/
theorem Process_TestConfig_lists_unset_keys_witness :
    unsetKeys (asciiHostOf (fun k => [("WITH_DEFAULT", "custom_default")].lookup k))
        ["SIMPLE", "NESTED_REQUIRED", "PTR_REQUIRED"] ≠ []
      ∧ (Process (asciiHostOf (fun k => [("WITH_DEFAULT", "custom_default")].lookup k))
            (some (.requiredKeyAbsent "SIMPLE")) "" (.ptrToStruct TestConfig TestConfig.Zero)
          = .ret (some (.errorf ("configuration error:"
              ++ missingLines
                  (unsetKeys (asciiHostOf (fun k => [("WITH_DEFAULT", "custom_default")].lookup k))
                    ["SIMPLE", "NESTED_REQUIRED", "PTR_REQUIRED"]))))
        ∧ Process (asciiHost [("WITH_DEFAULT", "custom_default")])
            (some (.requiredKeyAbsent "SIMPLE")) "" (.ptrToStruct TestConfig TestConfig.Zero)
          = .ret (some (.errorf
              "configuration error:\n\tmissing required environment variable \"SIMPLE\"\n\tmissing required environment variable \"NESTED_REQUIRED\"\n\tmissing required environment variable \"PTR_REQUIRED\""))) :=
  ⟨by decide,
   Process_TestConfig_lists_unset_keys (fun k => [("WITH_DEFAULT", "custom_default")].lookup k)
     "SIMPLE" TestConfig.Zero (by decide)⟩

/-! ## Lemmas on rewritten tags -/

theorem scalar_check_congr (h : Host) (pfx name : String) (tag tag2 : StructTag)
    (he : tag2.Get "envconfig" = tag.Get "envconfig")
    (hr : tag.Get "envconfig" ≠ "" → tag2.Get "required" = tag.Get "required") :
    (if tag2.Get "required" = "true" ∧ tag2.Get "envconfig" ≠ "" then
        if h.Getenv (h.ToUpper (envKey pfx (tag2.Get "envconfig"))) = "" then
          [({ StructField := name,
              EnvKey := h.ToUpper (envKey pfx (tag2.Get "envconfig")) } : MissingEnvError)]
        else []
      else [])
      = (if tag.Get "required" = "true" ∧ tag.Get "envconfig" ≠ "" then
        if h.Getenv (h.ToUpper (envKey pfx (tag.Get "envconfig"))) = "" then
          [{ StructField := name, EnvKey := h.ToUpper (envKey pfx (tag.Get "envconfig")) }]
        else []
      else []) := by
  rw [he]
  by_cases hk : tag.Get "envconfig" = ""
  · simp [hk]
  · rw [hr hk]

theorem walk_mapTags (h : Host) (gs gc : List Nat → StructTag → StructTag)
    (hc : ∀ pos tag, (gc pos tag).Get "envconfig" = tag.Get "envconfig")
    (hs : ∀ pos tag, (gs pos tag).Get "envconfig" = tag.Get "envconfig")
    (hr : ∀ pos tag, tag.Get "envconfig" ≠ "" →
      (gs pos tag).Get "required" = tag.Get "required") :
    ∀ (t : Fields) (pos : List Nat) (i : Nat) (pfx : String) (v : t.Values)
      (w : (t.mapTags gs gc pos i).Values),
      findMissingRequiredVars h pfx (t.mapTags gs gc pos i) w = findMissingRequiredVars h pfx t v
  | .nil, _, _, _, _, _ => rfl
  | .cons name tag (.struct fields) rest, pos, i, pfx, (fv, vs), (fw, ws) => by
      simp only [Fields.mapTags, findMissingRequiredVars, hc,
        walk_mapTags h gs gc hc hs hr fields _ _ _ fv fw,
        walk_mapTags h gs gc hc hs hr rest pos (i + 1) pfx vs ws]
  | .cons name tag (.ptr (.struct fields)) rest, pos, i, pfx, (fv, vs), (fw, ws) => by
      simp only [Fields.mapTags, findMissingRequiredVars, hc,
        walk_mapTags h gs gc hc hs hr rest pos (i + 1) pfx vs ws]
      congr 1
      cases fv <;> cases fw <;> exact walk_mapTags h gs gc hc hs hr fields _ _ _ _ _
  | .cons name tag .basic rest, pos, i, pfx, (fv, vs), (fw, ws) => by
      simp only [Fields.mapTags, findMissingRequiredVars,
        walk_mapTags h gs gc hc hs hr rest pos (i + 1) pfx vs ws]
      rw [scalar_check_congr h pfx name tag _ (hs _ tag) (hr _ tag)]
  | .cons name tag (.ptr .basic) rest, pos, i, pfx, (fv, vs), (fw, ws) => by
      simp only [Fields.mapTags, findMissingRequiredVars,
        walk_mapTags h gs gc hc hs hr rest pos (i + 1) pfx vs ws]
      rw [scalar_check_congr h pfx name tag _ (hs _ tag) (hr _ tag)]
  | .cons name tag (.ptr (.ptr _)) rest, pos, i, pfx, (fv, vs), (fw, ws) => by
      simp only [Fields.mapTags, findMissingRequiredVars,
        walk_mapTags h gs gc hc hs hr rest pos (i + 1) pfx vs ws]
      rw [scalar_check_congr h pfx name tag _ (hs _ tag) (hr _ tag)]

theorem mem_walk_iff (h : Host) (pfx : String) (t : Fields) (v : t.Values)
    (m : MissingEnvError) :
    m ∈ findMissingRequiredVars h pfx t v
      ↔ ∃ l ∈ leaves [] t, l.required = true ∧ l.fragment ≠ ""
          ∧ h.Getenv (l.effectiveKey h pfx) = "" ∧ l.record h pfx = m := by
  rw [walk_eq_missing_leaves, List.mem_map]
  constructor
  · rintro ⟨l, hl, rfl⟩
    obtain ⟨hmem, hmiss⟩ := List.mem_filter.mp hl
    simp only [Leaf.isMissing, Bool.and_eq_true, decide_eq_true_eq] at hmiss
    exact ⟨l, hmem, hmiss.1.1, hmiss.1.2, hmiss.2, rfl⟩
  · rintro ⟨l, hmem, hr, hf, hg, rfl⟩
    refine ⟨l, List.mem_filter.mpr ⟨hmem, ?_⟩, rfl⟩
    simp [Leaf.isMissing, hr, hf, hg]

theorem get_set_ne (tag : StructTag) (key value other : String) (hne : other ≠ key) :
    (tag.set key value).Get other = tag.Get other := by
  have hb : (other == key) = false := by simpa using hne
  simp [StructTag.set, StructTag.Get, List.lookup, hb]

/-! ## The claims on what the walk reads of a tag -/

/-- C13: a required scalar field with an empty key fragment is never
reported: every record of the walk is the record of a leaf with a non-empty
fragment, and the walk is unchanged when the tags of fields without a
fragment are rewritten in any way that keeps them without one, in particular
when their required flag is flipped. -/
theorem findMissingRequiredVars_never_reports_unkeyed (h : Host) (pfx : String) (t : Fields)
    (v : t.Values) (gs : List Nat → StructTag → StructTag)
    (w : (t.mapTags gs (fun _ tag => tag) [] 0).Values)
    (hs : ∀ pos tag, tag.Get "envconfig" = "" → (gs pos tag).Get "envconfig" = "")
    (hk : ∀ pos tag, tag.Get "envconfig" ≠ "" → gs pos tag = tag) :
    (∀ m ∈ findMissingRequiredVars h pfx t v,
        ∃ l ∈ leaves [] t, l.fragment ≠ "" ∧ l.record h pfx = m)
      ∧ findMissingRequiredVars h pfx (t.mapTags gs (fun _ tag => tag) [] 0) w
        = findMissingRequiredVars h pfx t v := by
  refine ⟨fun m hm => ?_, ?_⟩
  · obtain ⟨l, hl, _, hf, _, hrec⟩ := (mem_walk_iff h pfx t v m).mp hm
    exact ⟨l, hl, hf, hrec⟩
  · refine walk_mapTags h gs _ (fun _ _ => rfl) (fun pos tag => ?_)
      (fun pos tag hne => by rw [hk pos tag hne]) t [] 0 pfx v w
    by_cases he : tag.Get "envconfig" = ""
    · rw [hs pos tag he, he]
    · rw [hk pos tag he]

/-- The witness of C13: the required flag of the field `A` without a key,
inside a nested structure, is set to `false`. -/
theorem findMissingRequiredVars_never_reports_unkeyed_witness :
    (∀ pos tag, StructTag.Get tag "envconfig" = "" →
        (requireUnkeyed "false" pos tag).Get "envconfig" = "")
      ∧ (∀ pos tag, StructTag.Get tag "envconfig" ≠ "" → requireUnkeyed "false" pos tag = tag)
      ∧ ((∀ m ∈ findMissingRequiredVars (asciiHost []) "" NestedUnkeyedConfig
              NestedUnkeyedConfig.Zero,
            ∃ l ∈ leaves [] NestedUnkeyedConfig,
              l.fragment ≠ "" ∧ l.record (asciiHost []) "" = m)
        ∧ findMissingRequiredVars (asciiHost []) ""
            (NestedUnkeyedConfig.mapTags (requireUnkeyed "false") (fun _ tag => tag) [] 0)
            (("", "", ()), ())
          = findMissingRequiredVars (asciiHost []) "" NestedUnkeyedConfig
              NestedUnkeyedConfig.Zero) :=
  ⟨fun _ tag he => by
      show StructTag.Get (if tag.Get "envconfig" = "" then tag.set "required" "false" else tag)
        "envconfig" = ""
      rw [if_pos he, get_set_ne tag "required" "false" "envconfig" (by decide), he],
   fun _ tag hne => if_neg hne,
   findMissingRequiredVars_never_reports_unkeyed (asciiHost []) "" NestedUnkeyedConfig
     NestedUnkeyedConfig.Zero (requireUnkeyed "false") (("", "", ()), ())
     (fun _ tag he => by
        show StructTag.Get (if tag.Get "envconfig" = "" then tag.set "required" "false" else tag)
          "envconfig" = ""
        rw [if_pos he, get_set_ne tag "required" "false" "envconfig" (by decide), he])
     (fun _ tag hne => if_neg hne)⟩

/-- C14: a nested or optional-nested field is never itself reported: what
the walk returns for it is what the walk of its child schema returns, under
the next prefix, whatever the field's tag; and the walk is unchanged when the
tags of such fields are rewritten in any way that keeps their key fragment,
in particular when their required flag or default is changed. -/
theorem findMissingRequiredVars_container_not_reported (h : Host) (pfx name : String)
    (tag : StructTag) (fields rest : Fields) (fv : fields.Values) (vs : rest.Values)
    (t : Fields) (v : t.Values) (gc : List Nat → StructTag → StructTag)
    (w : (t.mapTags (fun _ tag => tag) gc [] 0).Values)
    (hc : ∀ pos tag, (gc pos tag).Get "envconfig" = tag.Get "envconfig") :
    findMissingRequiredVars h pfx (.cons name tag (.struct fields) rest) (fv, vs)
        = findMissingRequiredVars h (nextPrefix pfx (tag.Get "envconfig")) fields fv
          ++ findMissingRequiredVars h pfx rest vs
      ∧ findMissingRequiredVars h pfx (.cons name tag (.ptr (.struct fields)) rest)
          (some fv, vs)
        = findMissingRequiredVars h (nextPrefix pfx (tag.Get "envconfig")) fields fv
          ++ findMissingRequiredVars h pfx rest vs
      ∧ findMissingRequiredVars h pfx (.cons name tag (.ptr (.struct fields)) rest) (none, vs)
        = findMissingRequiredVars h (nextPrefix pfx (tag.Get "envconfig")) fields fields.Zero
          ++ findMissingRequiredVars h pfx rest vs
      ∧ findMissingRequiredVars h pfx (t.mapTags (fun _ tag => tag) gc [] 0) w
        = findMissingRequiredVars h pfx t v :=
  ⟨by simp only [findMissingRequiredVars], by simp only [findMissingRequiredVars],
   by simp only [findMissingRequiredVars],
   walk_mapTags h _ gc hc (fun _ _ => rfl) (fun _ _ _ => rfl) t [] 0 pfx v w⟩

/-- The witness of C14: the nested field of `NestedUnkeyedConfig`, required
and with a default, and the test schema with every nested field made required
with a default. -/
theorem findMissingRequiredVars_container_not_reported_witness :
    (∀ pos tag, (setRequiredDefault "true" "d" pos tag).Get "envconfig"
        = StructTag.Get tag "envconfig")
      ∧ (findMissingRequiredVars (asciiHost []) ""
            (.cons "Inner" [("envconfig", "IN"), ("required", "true"), ("default", "y")]
              (.struct UntaggedConfig) .nil) (UntaggedConfig.Zero, ())
          = findMissingRequiredVars (asciiHost [])
              (nextPrefix "" (StructTag.Get
                [("envconfig", "IN"), ("required", "true"), ("default", "y")] "envconfig"))
              UntaggedConfig UntaggedConfig.Zero
            ++ findMissingRequiredVars (asciiHost []) "" .nil ()
        ∧ findMissingRequiredVars (asciiHost []) ""
            (.cons "Inner" [("envconfig", "IN"), ("required", "true"), ("default", "y")]
              (.ptr (.struct UntaggedConfig)) .nil) (some UntaggedConfig.Zero, ())
          = findMissingRequiredVars (asciiHost [])
              (nextPrefix "" (StructTag.Get
                [("envconfig", "IN"), ("required", "true"), ("default", "y")] "envconfig"))
              UntaggedConfig UntaggedConfig.Zero
            ++ findMissingRequiredVars (asciiHost []) "" .nil ()
        ∧ findMissingRequiredVars (asciiHost []) ""
            (.cons "Inner" [("envconfig", "IN"), ("required", "true"), ("default", "y")]
              (.ptr (.struct UntaggedConfig)) .nil) (none, ())
          = findMissingRequiredVars (asciiHost [])
              (nextPrefix "" (StructTag.Get
                [("envconfig", "IN"), ("required", "true"), ("default", "y")] "envconfig"))
              UntaggedConfig UntaggedConfig.Zero
            ++ findMissingRequiredVars (asciiHost []) "" .nil ()
        ∧ findMissingRequiredVars (asciiHost []) ""
            (TestConfig.mapTags (fun _ tag => tag) (setRequiredDefault "true" "d") [] 0)
            ("", "", ("", "", ()), none, ())
          = findMissingRequiredVars (asciiHost []) "" TestConfig TestConfig.Zero) :=
  ⟨fun _ tag => by
      unfold setRequiredDefault
      rw [get_set_ne _ "default" "d" "envconfig" (by decide),
        get_set_ne _ "required" "true" "envconfig" (by decide)],
   findMissingRequiredVars_container_not_reported (asciiHost []) "" "Inner"
     [("envconfig", "IN"), ("required", "true"), ("default", "y")] UntaggedConfig .nil
     UntaggedConfig.Zero () TestConfig TestConfig.Zero (setRequiredDefault "true" "d")
     ("", "", ("", "", ()), none, ())
     (fun _ tag => by
        unfold setRequiredDefault
        rw [get_set_ne _ "default" "d" "envconfig" (by decide),
          get_set_ne _ "required" "true" "envconfig" (by decide)])⟩

/-- C15: the walk does not read the default: it is unchanged when the tags
of all fields are rewritten in any way that changes nothing but the `default`
key, and a scalar leaf that is required, has a non-empty fragment and an
unset effective key is reported, whatever default it declares. -/
theorem findMissingRequiredVars_ignores_default (h : Host) (pfx : String) (t : Fields)
    (v : t.Values) (g : List Nat → StructTag → StructTag)
    (w : (t.mapTags g g [] 0).Values)
    (hg : ∀ pos tag key, key ≠ "default" → (g pos tag).Get key = tag.Get key) :
    findMissingRequiredVars h pfx (t.mapTags g g [] 0) w = findMissingRequiredVars h pfx t v
      ∧ ∀ l ∈ leaves [] t, l.required = true → l.fragment ≠ "" →
          h.Getenv (l.effectiveKey h pfx) = "" →
          l.record h pfx ∈ findMissingRequiredVars h pfx t v :=
  ⟨walk_mapTags h g g (fun pos tag => hg pos tag "envconfig" (by decide))
      (fun pos tag => hg pos tag "envconfig" (by decide))
      (fun pos tag _ => hg pos tag "required" (by decide)) t [] 0 pfx v w,
   fun l hl hr hf hge => (mem_walk_iff h pfx t v _).mpr ⟨l, hl, hr, hf, hge, rfl⟩⟩

/-- The witness of C15: every field of the test schema is given the default
`d`, `SIMPLE` included. -/
theorem findMissingRequiredVars_ignores_default_witness :
    (∀ pos tag key, key ≠ "default" →
        (setDefault "d" pos tag).Get key = StructTag.Get tag key)
      ∧ (findMissingRequiredVars (asciiHost []) "" (TestConfig.mapTags (setDefault "d")
            (setDefault "d") [] 0) ("", "", ("", "", ()), none, ())
          = findMissingRequiredVars (asciiHost []) "" TestConfig TestConfig.Zero
        ∧ ∀ l ∈ leaves [] TestConfig, l.required = true → l.fragment ≠ "" →
            (asciiHost []).Getenv (l.effectiveKey (asciiHost []) "") = "" →
            l.record (asciiHost []) ""
              ∈ findMissingRequiredVars (asciiHost []) "" TestConfig TestConfig.Zero) :=
  ⟨fun _ tag key hne => get_set_ne tag "default" "d" key hne,
   findMissingRequiredVars_ignores_default (asciiHost []) "" TestConfig TestConfig.Zero
     (setDefault "d") ("", "", ("", "", ()), none, ())
     (fun _ tag key hne => get_set_ne tag "default" "d" key hne)⟩

/-! ## The claim on larger environments -/

theorem isMissing_mono (h : Host) (environ : String → Option String)
    (hmono : ∀ key, h.Getenv key ≠ "" → (h.withEnviron environ).Getenv key ≠ "")
    (pfx : String) (l : Leaf) (hm : l.isMissing (h.withEnviron environ) pfx = true) :
    l.isMissing h pfx = true := by
  simp only [Leaf.isMissing, Bool.and_eq_true, decide_eq_true_eq] at hm ⊢
  refine ⟨hm.1, ?_⟩
  by_contra hne
  exact hmono _ hne hm.2

/-- C17: the walk is monotone in the environment: when a second environment
gives a non-empty value to every key the first gives a non-empty value to, the
walk under the second is a sublist, in the same order, of the walk under the
first; and the walk is empty exactly when every required scalar leaf with a
non-empty fragment has a non-empty value under its effective key. -/
theorem findMissingRequiredVars_monotone (h : Host) (environ : String → Option String)
    (pfx : String) (t : Fields) (v : t.Values)
    (hmono : ∀ key, h.Getenv key ≠ "" → (h.withEnviron environ).Getenv key ≠ "") :
    List.Sublist (findMissingRequiredVars (h.withEnviron environ) pfx t v)
        (findMissingRequiredVars h pfx t v)
      ∧ (findMissingRequiredVars h pfx t v = []
          ↔ ∀ l ∈ leaves [] t, l.required = true → l.fragment ≠ "" →
              h.Getenv (l.effectiveKey h pfx) ≠ "") := by
  constructor
  · rw [walk_eq_missing_leaves, walk_eq_missing_leaves]
    have hrec : Leaf.record (h.withEnviron environ) pfx = Leaf.record h pfx := rfl
    rw [hrec]
    exact (List.monotone_filter_right (leaves [] t)
      (fun l hm => isMissing_mono h environ hmono pfx l hm)).map _
  · constructor
    · intro hz l hl hr hf hg
      have hmem := (mem_walk_iff h pfx t v (l.record h pfx)).mpr ⟨l, hl, hr, hf, hg, rfl⟩
      rw [hz] at hmem
      exact absurd hmem (List.not_mem_nil _)
    · intro hall
      apply List.eq_nil_iff_forall_not_mem.mpr
      intro m hm
      obtain ⟨l, hl, hr, hf, hg, _⟩ := (mem_walk_iff h pfx t v m).mp hm
      exact hall l hl hr hf hg

/-- The witness of C17: the test schema, first with `SIMPLE` set, then with
`SIMPLE` and `PTR_REQUIRED` set. -/
theorem findMissingRequiredVars_monotone_witness :
    (∀ key, (asciiHost [("SIMPLE", "value")]).Getenv key ≠ "" →
        ((asciiHost [("SIMPLE", "value")]).withEnviron
          (fun k => [("SIMPLE", "value"), ("PTR_REQUIRED", "ptr_value")].lookup k)).Getenv key
          ≠ "")
      ∧ (List.Sublist
          (findMissingRequiredVars
            ((asciiHost [("SIMPLE", "value")]).withEnviron
              (fun k => [("SIMPLE", "value"), ("PTR_REQUIRED", "ptr_value")].lookup k))
            "" TestConfig TestConfig.Zero)
          (findMissingRequiredVars (asciiHost [("SIMPLE", "value")]) "" TestConfig
            TestConfig.Zero)
        ∧ (findMissingRequiredVars (asciiHost [("SIMPLE", "value")]) "" TestConfig
              TestConfig.Zero = []
            ↔ ∀ l ∈ leaves [] TestConfig, l.required = true → l.fragment ≠ "" →
                (asciiHost [("SIMPLE", "value")]).Getenv
                  (l.effectiveKey (asciiHost [("SIMPLE", "value")]) "") ≠ "")) := by
  have hmono : ∀ key, (asciiHost [("SIMPLE", "value")]).Getenv key ≠ "" →
      ((asciiHost [("SIMPLE", "value")]).withEnviron
        (fun k => [("SIMPLE", "value"), ("PTR_REQUIRED", "ptr_value")].lookup k)).Getenv key
        ≠ "" := by
    intro key hne
    by_cases hk : key = "SIMPLE"
    · subst hk
      decide
    · have hb : (key == "SIMPLE") = false := by simpa using hk
      exact absurd (by simp [Host.Getenv, asciiHost, List.lookup, hb]) hne
  exact ⟨hmono,
    findMissingRequiredVars_monotone (asciiHost [("SIMPLE", "value")])
      (fun k => [("SIMPLE", "value"), ("PTR_REQUIRED", "ptr_value")].lookup k) "" TestConfig
      TestConfig.Zero hmono⟩

/-! ## Lemmas on declared structure types -/

theorem within_succ (h : Host) (decls : String → FieldDecls) (depth : Nat) (pfx : String)
    (fields : FieldDecls) :
    findMissingRequiredVarsWithin h decls (depth + 1) pfx fields
      = walkFields h decls (findMissingRequiredVarsWithin h decls depth) pfx fields := rfl

theorem within_tree (h : Host) (decls : String → FieldDecls) :
    ∀ (t : Fields) (depth : Nat) (pfx : String) (v : t.Values), t.nesting < depth →
      findMissingRequiredVarsWithin h decls depth pfx t.toDecls
        = some (findMissingRequiredVars h pfx t v)
  | _, 0, _, _, hd => absurd hd (Nat.not_lt_zero _)
  | .nil, depth + 1, _, _, _ => rfl
  | .cons name tag (.struct fields) rest, depth + 1, pfx, (fv, vs), hd => by
      simp only [Fields.nesting] at hd
      have h1 := within_tree h decls fields depth (nextPrefix pfx (tag.Get "envconfig")) fv
        (by omega)
      have h2 := within_tree h decls rest (depth + 1) pfx vs (by omega)
      rw [within_succ] at h2 ⊢
      simp only [Fields.toDecls, GoType.toExpr, walkFields, nestedFields, h1, h2,
        findMissingRequiredVars]
  | .cons name tag (.ptr (.struct fields)) rest, depth + 1, pfx, (fv, vs), hd => by
      simp only [Fields.nesting] at hd
      have h2 := within_tree h decls rest (depth + 1) pfx vs (by omega)
      rw [within_succ] at h2 ⊢
      cases fv with
      | none =>
        have h1 := within_tree h decls fields depth (nextPrefix pfx (tag.Get "envconfig"))
          fields.Zero (by omega)
        simp only [Fields.toDecls, GoType.toExpr, walkFields, nestedFields, h1, h2,
          findMissingRequiredVars]
      | some x =>
        have h1 := within_tree h decls fields depth (nextPrefix pfx (tag.Get "envconfig")) x
          (by omega)
        simp only [Fields.toDecls, GoType.toExpr, walkFields, nestedFields, h1, h2,
          findMissingRequiredVars]
  | .cons name tag .basic rest, depth + 1, pfx, (fv, vs), hd => by
      simp only [Fields.nesting] at hd
      have h2 := within_tree h decls rest (depth + 1) pfx vs hd
      rw [within_succ] at h2 ⊢
      simp only [Fields.toDecls, GoType.toExpr, walkFields, nestedFields, h2,
        findMissingRequiredVars]
  | .cons name tag (.ptr .basic) rest, depth + 1, pfx, (fv, vs), hd => by
      simp only [Fields.nesting] at hd
      have h2 := within_tree h decls rest (depth + 1) pfx vs hd
      rw [within_succ] at h2 ⊢
      simp only [Fields.toDecls, GoType.toExpr, walkFields, nestedFields, h2,
        findMissingRequiredVars]
  | .cons name tag (.ptr (.ptr elem)) rest, depth + 1, pfx, (fv, vs), hd => by
      simp only [Fields.nesting] at hd
      have h2 := within_tree h decls rest (depth + 1) pfx vs hd
      rw [within_succ] at h2 ⊢
      simp only [Fields.toDecls, GoType.toExpr, walkFields, nestedFields, h2,
        findMissingRequiredVars]

theorem within_self_none (h : Host) :
    ∀ (depth : Nat) (pfx : String),
      findMissingRequiredVarsWithin h selfDecls depth pfx SelfConfig = none
  | 0, _ => rfl
  | depth + 1, pfx => by
      have ih := within_self_none h depth (nextPrefix pfx (StructTag.Get [] "envconfig"))
      rw [within_succ]
      simp only [SelfConfig, walkFields, nestedFields, selfDecls] at ih ⊢
      rw [ih]

/-! ## The claim on termination -/

/-- C12, as stated, fails: on the declared type `Config`, whose optional field
`parent` points back to `Config`, the walk returns within no depth of nested
activations: the recursion does not end. -/
theorem findMissingRequiredVars_self_reference_counterexample :
    ¬ ∃ depth : Nat,
        (findMissingRequiredVarsWithin (asciiHost []) selfDecls depth "" SelfConfig).isSome
          = true := by
  rintro ⟨depth, hd⟩
  rw [within_self_none (asciiHost []) depth ""] at hd
  cases hd

/-- C12, amended: on every schema that is a finite tree the walk returns and
does not fail: it needs no more nested activations than the nesting depth of
the schema plus one, a bound that depends on neither the environment nor the
instance, and what it returns within that depth is the result of
`findMissingRequiredVars`, for every environment and every instance. -/
theorem findMissingRequiredVars_returns_within_nesting (h : Host)
    (decls : String → FieldDecls) (pfx : String) (t : Fields) (v : t.Values) (extra : Nat) :
    findMissingRequiredVarsWithin h decls (t.nesting + 1 + extra) pfx t.toDecls
      = some (findMissingRequiredVars h pfx t v) :=
  within_tree h decls t _ pfx v (by omega)

/-! ## The claim on the decision of `Process` -/

/-- C16: `Process` returns the combined report exactly when the binder
failed, the text of its error contains `required key` and the walk is not
empty; in every other case, a target the binder rejects being answered with
its invalid-specification error, `Process` returns the binder's result as it
is.  Two binder errors with the same text are treated alike, whatever their
kind. -/
theorem Process_combined_iff_text_and_walk (h : Host) (err : Option BinderError)
    (pfx : String) (spec : Target)
    (hb : ∀ e, err = some e → spec.isPtrToStruct = false → e = .invalidSpecification) :
    ((∃ text, Process h err pfx spec = .ret (some (.errorf text)))
        ↔ ∃ e t v, err = some e ∧ Contains e.Error "required key" = true
            ∧ spec = .ptrToStruct t v ∧ findMissingRequiredVars h pfx t v ≠ [])
      ∧ (∀ e t v, err = some e → Contains e.Error "required key" = true →
          spec = .ptrToStruct t v → findMissingRequiredVars h pfx t v ≠ [] →
          Process h err pfx spec = .ret (some (.errorf
            ("configuration error:" ++ entryLines h (findMissingRequiredVars h pfx t v)))))
      ∧ ((¬ ∃ e t v, err = some e ∧ Contains e.Error "required key" = true
            ∧ spec = .ptrToStruct t v ∧ findMissingRequiredVars h pfx t v ≠ []) →
          Process h err pfx spec = .ret (err.map GoError.binder))
      ∧ (∀ e1 e2 : BinderError, e1.Error = e2.Error →
          ((∃ text, Process h (some e1) pfx spec = .ret (some (.errorf text)))
            ↔ ∃ text, Process h (some e2) pfx spec = .ret (some (.errorf text)))) := by
  have hcomb : ∀ e t v, err = some e → Contains e.Error "required key" = true →
      spec = .ptrToStruct t v → findMissingRequiredVars h pfx t v ≠ [] →
      Process h err pfx spec = .ret (some (.errorf
        ("configuration error:" ++ entryLines h (findMissingRequiredVars h pfx t v)))) := by
    intro e t v he hc hs hne
    subst he; subst hs
    exact Process_of_contains h e pfx t v hc hne
  have hother : (¬ ∃ e t v, err = some e ∧ Contains e.Error "required key" = true
        ∧ spec = .ptrToStruct t v ∧ findMissingRequiredVars h pfx t v ≠ []) →
      Process h err pfx spec = .ret (err.map GoError.binder) := by
    intro hno
    cases err with
    | none => rfl
    | some e =>
      by_cases hc : Contains e.Error "required key" = true
      · cases spec with
        | ptrToStruct t v =>
          by_cases hz : findMissingRequiredVars h pfx t v = []
          · exact Process_of_walk_empty h e pfx t v hz
          · exact absurd ⟨e, t, v, rfl, hc, rfl, hz⟩ hno
        | nil =>
          rw [hb e rfl rfl]
          exact Process_of_not_contains h _ pfx _ (by decide)
        | nonPointer =>
          rw [hb e rfl rfl]
          exact Process_of_not_contains h _ pfx _ (by decide)
        | ptrToNonStruct =>
          rw [hb e rfl rfl]
          exact Process_of_not_contains h _ pfx _ (by decide)
      · exact Process_of_not_contains h e pfx spec (by simpa using hc)
  have hiff : ∀ (e : BinderError),
      ((∃ text, Process h (some e) pfx spec = .ret (some (.errorf text)))
        ↔ Contains e.Error "required key" = true
            ∧ ∃ t v, spec = .ptrToStruct t v ∧ findMissingRequiredVars h pfx t v ≠ []) := by
    intro e
    constructor
    · rintro ⟨text, hp⟩
      by_cases hc : Contains e.Error "required key" = true
      · refine ⟨hc, ?_⟩
        cases spec with
        | ptrToStruct t v =>
          refine ⟨t, v, rfl, fun hz => ?_⟩
          rw [Process_of_walk_empty h e pfx t v hz] at hp
          cases hp
        | nil => simp [Process, hc] at hp
        | nonPointer => simp [Process, hc] at hp
        | ptrToNonStruct => simp [Process, hc] at hp
      · rw [Process_of_not_contains h e pfx spec (by simpa using hc)] at hp
        cases hp
    · rintro ⟨hc, t, v, hs, hne⟩
      subst hs
      exact ⟨_, Process_of_contains h e pfx t v hc hne⟩
  refine ⟨?_, hcomb, hother, ?_⟩
  · constructor
    · rintro ⟨text, hp⟩
      cases err with
      | none => simp [Process] at hp
      | some e =>
        obtain ⟨hc, t, v, hs, hne⟩ := (hiff e).mp ⟨text, hp⟩
        exact ⟨e, t, v, rfl, hc, hs, hne⟩
    · rintro ⟨e, t, v, he, hc, hs, hne⟩
      exact ⟨_, hcomb e t v he hc hs hne⟩
  · intro e1 e2 htext
    rw [hiff e1, hiff e2, htext]

/-- The witness of C16: the test schema with `SIMPLE` unset. -/
theorem Process_combined_iff_text_and_walk_witness :
    (∀ e, some (BinderError.requiredKeyAbsent "SIMPLE") = some e →
        (Target.ptrToStruct TestConfig TestConfig.Zero).isPtrToStruct = false →
        e = .invalidSpecification)
      ∧ (∃ text, Process (asciiHost []) (some (.requiredKeyAbsent "SIMPLE")) ""
          (.ptrToStruct TestConfig TestConfig.Zero) = .ret (some (.errorf text))) :=
  ⟨fun _ _ hf => absurd hf (by decide),
   (Process_combined_iff_text_and_walk (asciiHost []) (some (.requiredKeyAbsent "SIMPLE")) ""
     (.ptrToStruct TestConfig TestConfig.Zero) (fun _ _ hf => absurd hf (by decide))).1.mpr
     ⟨.requiredKeyAbsent "SIMPLE", TestConfig, TestConfig.Zero, rfl, by decide, rfl,
      by decide⟩⟩

end EnvConfig
